import Mathlib

/-!
Shallow embedding of the `api` module of the btleplug repository
(file `src/api/mod.rs`), together with theorems settling the claims
about address parsing/formatting, the value types `AddressType`,
`BDAddr`, `Characteristic` and `PeripheralProperties`, and the
event-channel contract of `Central::event_receiver`.

Machine integers are modelled as `Fin 256` (`u8`) where the width
matters, and as `Nat` for `u16`/`u32`/`u128` fields that the claims
only compare (comparison on the in-range subset agrees with `Nat`).
-/

/-! ## Hex digits and hex formatting

`char::to_digit(16)` accepts `0-9`, `a-f`, `A-F`; Rust's `{:02X}`
formatting of a `u8` always produces exactly two uppercase hex digits. -/

/-- Value of a hex digit, as in Rust's `char::to_digit(16)` used by
`u8::from_str_radix(part, 16)`: digits `0-9`, lowercase `a-f` and
uppercase `A-F`; any other character is invalid. -/
def hexDigitVal (c : Char) : Option Nat :=
  if '0' ≤ c ∧ c ≤ '9' then some (c.toNat - '0'.toNat)
  else if 'a' ≤ c ∧ c ≤ 'f' then some (c.toNat - 'a'.toNat + 10)
  else if 'A' ≤ c ∧ c ≤ 'F' then some (c.toNat - 'A'.toNat + 10)
  else none

/-- Uppercase hex digit character for a value below 16, as produced by
Rust's `{:X}` formatting. -/
def hexUpper (d : Nat) : Char :=
  if d < 10 then Char.ofNat ('0'.toNat + d) else Char.ofNat ('A'.toNat + (d - 10))

/-- The two characters Rust's `{:02X}` prints for a `u8` value:
high nibble first, then low nibble (a `u8` always yields exactly two
digits under width-2 zero padding). -/
def toHex2 (b : Fin 256) : List Char :=
  [hexUpper (b.val / 16), hexUpper (b.val % 16)]

/-! ## Splitting on `:`

`str::split(':')` semantics: the empty string yields one empty part,
`":"` yields two empty parts, and in general the parts are the maximal
runs between colons, empties included. -/

/-- `s.split(':')` from Rust, on the character list of the string. -/
def splitParts : List Char → List (List Char)
  | [] => [[]]
  | c :: cs =>
    if c = ':' then [] :: splitParts cs
    else
      match splitParts cs with
      | p :: ps => (c :: p) :: ps
      | [] => [[c]]

/-! ## `u8::from_str_radix(part, 16)`

The Rust parser strips one optional leading `+` or `-`, requires at
least one digit, folds the digits with a checked `acc * 16 + d` at `u8`
width (any step above 255 fails with an overflow error), and on the
`-` path a checked subtraction fails as soon as a nonzero digit
appears, so a negative-signed input succeeds (with value 0) exactly
when every remaining character is `0`. `BDAddr::from_str` collapses
every failure into `ParseBDAddrError::InvalidInt`, so only the success
set matters downstream. -/

/-- Digit fold of `u8::from_str_radix(_, 16)` for an unsigned,
positively signed input: checked `acc * 16 + digit` at `u8` width. -/
def parseHexDigitsU8 (acc : Fin 256) : List Char → Option (Fin 256)
  | [] => some acc
  | c :: cs =>
    match hexDigitVal c with
    | none => none
    | some d =>
      if h : acc.val * 16 + d ≤ 255 then
        parseHexDigitsU8 ⟨acc.val * 16 + d, Nat.lt_succ_of_le h⟩ cs
      else none

/-- `u8::from_str_radix(part, 16)` on the characters of one
colon-separated part, success set only (all error variants are mapped
to `InvalidInt` by the caller). -/
def parseHexU8 (cs : List Char) : Option (Fin 256) :=
  match cs with
  | [] => none
  | c :: rest =>
    if c = '+' then
      if rest.isEmpty then none else parseHexDigitsU8 0 rest
    else if c = '-' then
      if rest.isEmpty then none
      else if rest.all (fun x => x == '0') then some 0 else none
    else parseHexDigitsU8 0 (c :: rest)

/-! ## `BDAddr` and its parser/formatter -/

/-- `ParseBDAddrError` from `src/api/mod.rs`. -/
inductive ParseBDAddrError where
  | IncorrectByteCount
  | InvalidInt
deriving DecidableEq, Repr

/-- `BDAddr` from `src/api/mod.rs`: `pub address: [u8; 6]`. Field `aI`
models `self.address[I]`; the source stores the least-significant
byte of the displayed address at index 0. -/
structure BDAddr where
  a0 : Fin 256
  a1 : Fin 256
  a2 : Fin 256
  a3 : Fin 256
  a4 : Fin 256
  a5 : Fin 256
deriving DecidableEq, Repr

/-- The trait list of `#[derive(...)]` on `BDAddr`
(`src/api/mod.rs:82`): `Copy, Clone, Hash, Eq, PartialEq, Default` —
note the absence of `Ord` and `PartialOrd`. -/
def BDAddr.derivedTraits : List String :=
  ["Copy", "Clone", "Hash", "Eq", "PartialEq", "Default"]

/-- The `==` of the derived `PartialEq` on `BDAddr`: component-wise
equality of the 6-byte array. -/
def BDAddr.beqImpl (x y : BDAddr) : Bool :=
  x.a0 == y.a0 && x.a1 == y.a1 && x.a2 == y.a2 &&
  x.a3 == y.a3 && x.a4 == y.a4 && x.a5 == y.a5

/-- The `collect::<Result<Vec<u8>, _>>()` step of `BDAddr::from_str`:
parse every part with `u8::from_str_radix(_, 16)`, short-circuiting
on the first failure with `InvalidInt`. -/
def collectBytes : List (List Char) → Except ParseBDAddrError (List (Fin 256))
  | [] => .ok []
  | p :: ps =>
    match parseHexU8 p with
    | none => .error .InvalidInt
    | some b =>
      match collectBytes ps with
      | .error e => .error e
      | .ok bs => .ok (b :: bs)

/-- `BDAddr::from_str` (`src/api/mod.rs:130-144`): split on `:`, parse
each part as a hex `u8` (any failure is `InvalidInt`), then
`<[u8; 6]>::try_from` the byte vector (wrong length is
`IncorrectByteCount`) and reverse the array in place, so the byte
parsed last lands at index 0. -/
def BDAddr.from_str (s : String) : Except ParseBDAddrError BDAddr :=
  match collectBytes (splitParts s.data) with
  | .error e => .error e
  | .ok bytes =>
    match bytes with
    | [b0, b1, b2, b3, b4, b5] => .ok ⟨b5, b4, b3, b2, b1, b0⟩
    | _ => .error .IncorrectByteCount

/-- `impl Display for BDAddr` (`src/api/mod.rs:88-97`): prints
`a[5]:a[4]:a[3]:a[2]:a[1]:a[0]`, each byte as `{:02X}`. -/
def BDAddr.display (a : BDAddr) : String :=
  ⟨toHex2 a.a5 ++ ':' :: (toHex2 a.a4 ++ ':' :: (toHex2 a.a3 ++ ':' ::
    (toHex2 a.a2 ++ ':' :: (toHex2 a.a1 ++ ':' :: toHex2 a.a0))))⟩

/-! ## `AddressType` -/

/-- `AddressType` from `src/api/mod.rs`. -/
inductive AddressType where
  | Random
  | Public
deriving DecidableEq, Repr

/-- `AddressType::from_str`: `"public"` and `"random"` are the only
accepted strings. -/
def AddressType.from_str (v : String) : Option AddressType :=
  if v = "public" then some .Public
  else if v = "random" then some .Random
  else none

/-- `AddressType::from_u8`: `1` is `Public`, `2` is `Random`, anything
else is rejected. The argument is the numeric value of the `u8`. -/
def AddressType.from_u8 (v : Nat) : Option AddressType :=
  if v = 1 then some .Public
  else if v = 2 then some .Random
  else none

/-- `AddressType::num`. -/
def AddressType.num : AddressType → Nat
  | .Public => 1
  | .Random => 2

/-! ## `Characteristic` and its derived total order

`#[derive(Debug, Ord, PartialOrd, Eq, PartialEq, Clone)]` on
`Characteristic` (`src/api/mod.rs:191`) yields the lexicographic
comparison over the fields in declaration order: `start_handle`,
`end_handle`, `value_handle`, `uuid`, `properties`. -/

/-- The 128-bit UUID (`uuid::Uuid`). Its derived order compares the 16
bytes lexicographically, i.e. the 128-bit value numerically; `val` is
that value, so `Nat` comparison on `val` is the source order. -/
structure Uuid where
  val : Nat
deriving DecidableEq, Repr

/-- The derived `Ord::cmp` of `uuid::Uuid`. -/
def Uuid.cmp (x y : Uuid) : Ordering := compare x.val y.val

/-- `CharPropFlags` from the `bitflags!` block (`src/api/mod.rs:163`):
a `u8` bit set; `bits` is its numeric value. The macro derives
`Ord`, comparing `bits`. -/
structure CharPropFlags where
  bits : Nat
deriving DecidableEq, Repr

/-- The derived `Ord::cmp` of `CharPropFlags`. -/
def CharPropFlags.cmp (x y : CharPropFlags) : Ordering := compare x.bits y.bits

/-- `Characteristic` from `src/api/mod.rs`: three `u16` handles
(modelled as `Nat`), the UUID and the property flags. -/
structure Characteristic where
  start_handle : Nat
  end_handle : Nat
  value_handle : Nat
  uuid : Uuid
  properties : CharPropFlags
deriving DecidableEq, Repr

/-- The trait list of `#[derive(...)]` on `Characteristic`
(`src/api/mod.rs:191`). -/
def Characteristic.derivedTraits : List String :=
  ["Debug", "Ord", "PartialOrd", "Eq", "PartialEq", "Clone"]

/-- Comparison of the handle-range fields alone, in declaration order
(the first three fields of the derived lexicographic order). -/
def Characteristic.handleCmp (x y : Characteristic) : Ordering :=
  ((compare x.start_handle y.start_handle).then
    (compare x.end_handle y.end_handle)).then
    (compare x.value_handle y.value_handle)

/-- The derived `Ord::cmp` of `Characteristic`: lexicographic over
`start_handle`, `end_handle`, `value_handle`, `uuid`, `properties` in
declaration order. -/
def Characteristic.cmp (x y : Characteristic) : Ordering :=
  ((((compare x.start_handle y.start_handle).then
      (compare x.end_handle y.end_handle)).then
      (compare x.value_handle y.value_handle)).then
      (Uuid.cmp x.uuid y.uuid)).then
      (CharPropFlags.cmp x.properties y.properties)

/-! ## `PeripheralProperties` -/

/-- `PeripheralProperties` from `src/api/mod.rs`. The two `HashMap`
fields are modelled as association lists (the claims do not inspect
them); `tx_power_level: Option<i8>` as `Option Int`;
`discovery_count: u32` as `Nat`. -/
structure PeripheralProperties where
  address : BDAddr
  address_type : AddressType
  local_name : Option String
  tx_power_level : Option Int
  manufacturer_data : List (Nat × List (Fin 256))
  service_data : List (Uuid × List (Fin 256))
  services : List Uuid
  discovery_count : Nat
  has_scan_response : Bool
deriving DecidableEq, Repr

/-- The identity key under which a device record is stored and looked
up: `Peripheral::address(&self) -> BDAddr` (`src/api/mod.rs:261`) and
`Central::peripheral(&self, address: BDAddr)` (`src/api/mod.rs:383`)
both use the bare `BDAddr`; the `address_type` field is not part of
the key. -/
def PeripheralProperties.identityKey (p : PeripheralProperties) : BDAddr :=
  p.address

/-! ## `CentralEvent` and the event channel of `Central` -/

/-- `CentralEvent` from `src/api/mod.rs`. -/
inductive CentralEvent where
  | DeviceDiscovered (addr : BDAddr)
  | DeviceLost (addr : BDAddr)
  | DeviceUpdated (addr : BDAddr)
  | DeviceConnected (addr : BDAddr)
  | DeviceDisconnected (addr : BDAddr)
  | ManufacturerDataAdvertisement (address : BDAddr) (manufacturer_id : Nat)
      (data : List (Fin 256))
  | ServiceDataAdvertisement (address : BDAddr) (service : Uuid)
      (data : List (Fin 256))
  | ServicesAdvertisement (address : BDAddr) (services : List Uuid)

/-- Whether the single `std::sync::mpsc::Receiver<CentralEvent>` of a
`Central` has already been handed out. Modelled from the documented
contract of `Central::event_receiver` in `src/api/mod.rs:351-357`:
the channel is an `std` channel whose receiver cannot be cloned, so
the first call returns `Some(receiver)` and every later call returns
`None`. -/
structure CentralChannelState where
  receiverTaken : Bool
deriving DecidableEq, Repr

/-- `Central::event_receiver` (`src/api/mod.rs:357`), modelled from its
documented contract: returns the receiver of the single event channel
on the first call and `None` on every subsequent call. The receiver
handle is abstracted to `Unit`; the second component is the state of
the `Central` after the call. -/
def Central.event_receiver (st : CentralChannelState) :
    Option Unit × CentralChannelState :=
  if st.receiverTaken then (none, st) else (some (), ⟨true⟩)


/-! ## Helper lemmas -/

theorem splitParts_no_colon : ∀ (l : List Char), (∀ c ∈ l, c ≠ ':') →
    splitParts l = [l]
  | [], _ => rfl
  | c :: cs, h => by
    have hc : c ≠ ':' := h c (List.mem_cons_self c cs)
    have ih := splitParts_no_colon cs (fun x hx => h x (List.mem_cons_of_mem c hx))
    simp [splitParts, hc, ih]

theorem splitParts_append (p r : List Char) (h : ∀ c ∈ p, c ≠ ':') :
    splitParts (p ++ ':' :: r) = p :: splitParts r := by
  induction p with
  | nil => simp [splitParts]
  | cons c cs ih =>
    have hc : c ≠ ':' := h c (by simp)
    have ih' := ih (fun x hx => h x (by simp [hx]))
    simp [splitParts, hc, ih']

set_option maxRecDepth 8192 in
theorem toHex2_no_colon : ∀ (b : Fin 256), ∀ c ∈ toHex2 b, c ≠ ':' := by decide

set_option maxRecDepth 8192 in
theorem parseHexU8_toHex2 : ∀ (b : Fin 256), parseHexU8 (toHex2 b) = some b := by
  decide

theorem ordering_then_of_ne {a : Ordering} (b : Ordering) (h : a ≠ .eq) :
    a.then b = a := by
  cases a <;> simp_all [Ordering.then]

theorem collectBytes_invalid : ∀ (ps : List (List Char)),
    (∃ p ∈ ps, parseHexU8 p = none) → collectBytes ps = .error .InvalidInt
  | [], h => absurd h (by simp)
  | p :: ps, h => by
    rcases h with ⟨q, hq, hnone⟩
    rcases List.mem_cons.mp hq with rfl | hq'
    · simp [collectBytes, hnone]
    · cases hp : parseHexU8 p with
      | none => simp [collectBytes, hp]
      | some b =>
        have := collectBytes_invalid ps ⟨q, hq', hnone⟩
        simp [collectBytes, hp, this]

theorem collectBytes_ok_length : ∀ (ps : List (List Char)) (l : List (Fin 256)),
    collectBytes ps = .ok l → l.length = ps.length
  | [], l, h => by simp [collectBytes] at h; simp [← h]
  | p :: ps, l, h => by
    cases hp : parseHexU8 p with
    | none => simp [collectBytes, hp] at h
    | some b =>
      cases hc : collectBytes ps with
      | error e => simp [collectBytes, hp, hc] at h
      | ok bs =>
        have := collectBytes_ok_length ps bs hc
        simp [collectBytes, hp, hc] at h
        simp [← h, this]

theorem collectBytes_ok_all : ∀ (ps : List (List Char)) (l : List (Fin 256)),
    collectBytes ps = .ok l → ∀ p ∈ ps, (parseHexU8 p).isSome
  | [], _, _, p, hp => absurd hp (by simp)
  | q :: ps, l, h, p, hp => by
    cases hq : parseHexU8 q with
    | none => simp [collectBytes, hq] at h
    | some b =>
      cases hc : collectBytes ps with
      | error e => simp [collectBytes, hq, hc] at h
      | ok bs =>
        rcases List.mem_cons.mp hp with rfl | hp'
        · simp [hq]
        · exact collectBytes_ok_all ps bs hc p hp'

theorem collectBytes_error_eq : ∀ (ps : List (List Char)) (e : ParseBDAddrError),
    collectBytes ps = .error e → e = .InvalidInt
  | [], e, h => by simp [collectBytes] at h
  | p :: ps, e, h => by
    cases hp : parseHexU8 p with
    | none =>
      simp [collectBytes, hp] at h
      first
      | exact h
      | exact h.symm
    | some b =>
      cases hc : collectBytes ps with
      | error e' =>
        have := collectBytes_error_eq ps e' hc
        simp [collectBytes, hp, hc] at h
        simp_all
      | ok bs => simp [collectBytes, hp, hc] at h

theorem collectBytes_ok_of_all : ∀ (ps : List (List Char)),
    (∀ p ∈ ps, (parseHexU8 p).isSome) →
    ∃ l, collectBytes ps = .ok l
  | [], _ => ⟨[], rfl⟩
  | p :: ps, h => by
    have hp := h p (List.mem_cons_self p ps)
    cases hq : parseHexU8 p with
    | none => simp [hq] at hp
    | some b =>
      rcases collectBytes_ok_of_all ps
        (fun q hqmem => h q (List.mem_cons_of_mem p hqmem)) with ⟨l, hl⟩
      exact ⟨b :: l, by simp [collectBytes, hq, hl]⟩

theorem from_str_of_error (s : String) (e : ParseBDAddrError)
    (h : collectBytes (splitParts s.data) = .error e) :
    BDAddr.from_str s = .error e := by
  simp [BDAddr.from_str, h]

theorem from_str_of_ok6 (s : String) (b0 b1 b2 b3 b4 b5 : Fin 256)
    (h : collectBytes (splitParts s.data) = .ok [b0, b1, b2, b3, b4, b5]) :
    BDAddr.from_str s = .ok ⟨b5, b4, b3, b2, b1, b0⟩ := by
  simp [BDAddr.from_str, h]

theorem from_str_of_ok_ne6 (s : String) (l : List (Fin 256))
    (h : collectBytes (splitParts s.data) = .ok l) (hlen : l.length ≠ 6) :
    BDAddr.from_str s = .error .IncorrectByteCount := by
  rcases l with _ | ⟨x0, _ | ⟨x1, _ | ⟨x2, _ | ⟨x3, _ | ⟨x4, _ | ⟨x5, _ | ⟨x6, t⟩⟩⟩⟩⟩⟩⟩
  all_goals first
  | exact absurd rfl hlen
  | simp [BDAddr.from_str, h]

theorem length_six_shape (l : List (Fin 256)) (h : l.length = 6) :
    ∃ b0 b1 b2 b3 b4 b5, l = [b0, b1, b2, b3, b4, b5] := by
  rcases l with _ | ⟨x0, _ | ⟨x1, _ | ⟨x2, _ | ⟨x3, _ | ⟨x4, _ | ⟨x5, _ | ⟨x6, t⟩⟩⟩⟩⟩⟩⟩
  all_goals simp at h
  exact ⟨x0, x1, x2, x3, x4, x5, rfl⟩

/-! ## The claims -/

/-- C2: parsing `"2A:00:AA:BB:CC:DD"` succeeds (bytes stored reversed,
least-significant at index 0) and `Display` of the result reproduces
the identical string; `"2A:00:00"` fails with `IncorrectByteCount`;
`"2A:00:AA:BB:CC:ZZ"` fails with `InvalidInt`. -/
theorem claim2_concrete_roundtrip :
    BDAddr.from_str "2A:00:AA:BB:CC:DD" =
      .ok ⟨0xDD, 0xCC, 0xBB, 0xAA, 0x00, 0x2A⟩ ∧
    BDAddr.display ⟨0xDD, 0xCC, 0xBB, 0xAA, 0x00, 0x2A⟩ = "2A:00:AA:BB:CC:DD" ∧
    BDAddr.from_str "2A:00:00" = .error .IncorrectByteCount ∧
    BDAddr.from_str "2A:00:AA:BB:CC:ZZ" = .error .InvalidInt :=
  ⟨rfl, by decide, rfl, rfl⟩

/-- C3: for every well-formed colon-separated 6-byte hex address
string, `BDAddr::from_str` stores the parsed bytes in reversed order
(the byte of the last part, the least significant one, at index 0),
and `Display` emits the stored bytes in reverse index order (index 5,
the most significant byte, first). -/
theorem claim3_byte_order :
    (∀ (s : String) (p0 p1 p2 p3 p4 p5 : List Char) (b0 b1 b2 b3 b4 b5 : Fin 256),
      splitParts s.data = [p0, p1, p2, p3, p4, p5] →
      parseHexU8 p0 = some b0 → parseHexU8 p1 = some b1 →
      parseHexU8 p2 = some b2 → parseHexU8 p3 = some b3 →
      parseHexU8 p4 = some b4 → parseHexU8 p5 = some b5 →
      BDAddr.from_str s = .ok ⟨b5, b4, b3, b2, b1, b0⟩) ∧
    (∀ a : BDAddr, splitParts (BDAddr.display a).data =
      [toHex2 a.a5, toHex2 a.a4, toHex2 a.a3, toHex2 a.a2, toHex2 a.a1, toHex2 a.a0]) := by
  constructor
  · intro s p0 p1 p2 p3 p4 p5 b0 b1 b2 b3 b4 b5 hsplit h0 h1 h2 h3 h4 h5
    have hcoll : collectBytes (splitParts s.data) = .ok [b0, b1, b2, b3, b4, b5] := by
      rw [hsplit]
      simp [collectBytes, h0, h1, h2, h3, h4, h5]
    exact from_str_of_ok6 s b0 b1 b2 b3 b4 b5 hcoll
  · intro a
    have hdata : (BDAddr.display a).data =
        toHex2 a.a5 ++ ':' :: (toHex2 a.a4 ++ ':' :: (toHex2 a.a3 ++ ':' ::
          (toHex2 a.a2 ++ ':' :: (toHex2 a.a1 ++ ':' :: toHex2 a.a0)))) := rfl
    rw [hdata,
      splitParts_append _ _ (toHex2_no_colon a.a5),
      splitParts_append _ _ (toHex2_no_colon a.a4),
      splitParts_append _ _ (toHex2_no_colon a.a3),
      splitParts_append _ _ (toHex2_no_colon a.a2),
      splitParts_append _ _ (toHex2_no_colon a.a1),
      splitParts_no_colon _ (toHex2_no_colon a.a0)]

/-- C3 witness: the reversal facts instantiated on the concrete address
`"2A:00:AA:BB:CC:DD"`. -/
theorem claim3_byte_order_witness :
    BDAddr.from_str "2A:00:AA:BB:CC:DD" =
      .ok ⟨0xDD, 0xCC, 0xBB, 0xAA, 0x00, 0x2A⟩ :=
  claim3_byte_order.1 "2A:00:AA:BB:CC:DD"
    ['2', 'A'] ['0', '0'] ['A', 'A'] ['B', 'B'] ['C', 'C'] ['D', 'D']
    0x2A 0x00 0xAA 0xBB 0xCC 0xDD
    (by decide) (by decide) (by decide) (by decide) (by decide) (by decide)
    (by decide)

/-- C8: format-then-parse is a universal round trip: for every `BDAddr`
value `a`, parsing its `Display` output succeeds and returns `a`. -/
theorem claim8_display_parse_roundtrip :
    ∀ a : BDAddr, BDAddr.from_str (BDAddr.display a) = .ok a := by
  intro a
  have hdata : (BDAddr.display a).data =
      toHex2 a.a5 ++ ':' :: (toHex2 a.a4 ++ ':' :: (toHex2 a.a3 ++ ':' ::
        (toHex2 a.a2 ++ ':' :: (toHex2 a.a1 ++ ':' :: toHex2 a.a0)))) := rfl
  have hsplit : splitParts (BDAddr.display a).data =
      [toHex2 a.a5, toHex2 a.a4, toHex2 a.a3, toHex2 a.a2, toHex2 a.a1, toHex2 a.a0] := by
    rw [hdata,
      splitParts_append _ _ (toHex2_no_colon a.a5),
      splitParts_append _ _ (toHex2_no_colon a.a4),
      splitParts_append _ _ (toHex2_no_colon a.a3),
      splitParts_append _ _ (toHex2_no_colon a.a2),
      splitParts_append _ _ (toHex2_no_colon a.a1),
      splitParts_no_colon _ (toHex2_no_colon a.a0)]
  have hcoll : collectBytes (splitParts (BDAddr.display a).data) =
      .ok [a.a5, a.a4, a.a3, a.a2, a.a1, a.a0] := by
    rw [hsplit]
    simp [collectBytes, parseHexU8_toHex2]
  have := from_str_of_ok6 (BDAddr.display a) a.a5 a.a4 a.a3 a.a2 a.a1 a.a0 hcoll
  cases a
  exact this

/-- C7: `BDAddr::from_str` is total and surfaces an error for every
malformed input (an input that does not consist of exactly six
colon-separated parts each parsing as a hex `u8`): the result is then
`IncorrectByteCount` or `InvalidInt`, never a silently defaulted
address. -/
theorem claim7_malformed_is_error :
    ∀ s : String,
    ¬ ((splitParts s.data).length = 6 ∧
        ∀ p ∈ splitParts s.data, (parseHexU8 p).isSome) →
    BDAddr.from_str s = .error .IncorrectByteCount ∨
    BDAddr.from_str s = .error .InvalidInt := by
  intro s hmal
  by_cases hall : ∀ p ∈ splitParts s.data, (parseHexU8 p).isSome
  · have hlen : (splitParts s.data).length ≠ 6 := fun h6 => hmal ⟨h6, hall⟩
    rcases collectBytes_ok_of_all _ hall with ⟨l, hl⟩
    have : l.length ≠ 6 := by
      rw [collectBytes_ok_length _ _ hl]
      exact hlen
    exact Or.inl (from_str_of_ok_ne6 s l hl this)
  · push_neg at hall
    rcases hall with ⟨p, hp, hnone⟩
    have : parseHexU8 p = none := Option.not_isSome_iff_eq_none.mp hnone
    exact Or.inr (from_str_of_error s _ (collectBytes_invalid _ ⟨p, hp, this⟩))

/-- C7 witness: the malformed input `"nope"` yields an error. -/
theorem claim7_malformed_is_error_witness :
    BDAddr.from_str "nope" = .error .IncorrectByteCount ∨
    BDAddr.from_str "nope" = .error .InvalidInt :=
  claim7_malformed_is_error "nope" (by decide)

/-- C9: hex-part validation takes precedence over the byte-count
check: any part that fails to parse as a hex `u8` forces `InvalidInt`
regardless of the part count, and `IncorrectByteCount` is returned
exactly when every part parses but the part count is not 6. -/
theorem claim9_invalid_precedence :
    ∀ s : String,
    ((∃ p ∈ splitParts s.data, parseHexU8 p = none) →
      BDAddr.from_str s = .error .InvalidInt) ∧
    (BDAddr.from_str s = .error .IncorrectByteCount ↔
      ((∀ p ∈ splitParts s.data, (parseHexU8 p).isSome) ∧
        (splitParts s.data).length ≠ 6)) := by
  intro s
  constructor
  · intro hex
    exact from_str_of_error s _ (collectBytes_invalid _ hex)
  · constructor
    · intro h
      cases hc : collectBytes (splitParts s.data) with
      | error e =>
        have he := collectBytes_error_eq _ _ hc
        rw [from_str_of_error s e hc] at h
        injection h with h2
        rw [he] at h2
        cases h2
      | ok l =>
        have hall := collectBytes_ok_all _ _ hc
        have hlen : l.length ≠ 6 := by
          intro h6
          rcases length_six_shape l h6 with ⟨b0, b1, b2, b3, b4, b5, rfl⟩
          rw [from_str_of_ok6 s b0 b1 b2 b3 b4 b5 hc] at h
          cases h
        refine ⟨hall, ?_⟩
        rw [← collectBytes_ok_length _ _ hc]
        exact hlen
    · rintro ⟨hall, hlen⟩
      rcases collectBytes_ok_of_all _ hall with ⟨l, hl⟩
      have : l.length ≠ 6 := by
        rw [collectBytes_ok_length _ _ hl]
        exact hlen
      exact from_str_of_ok_ne6 s l hl this

/-- C9 witness: `"2A:ZZ"` has both a bad part and a bad count and
parses to `InvalidInt`, not `IncorrectByteCount`; `"2A:00:00"` has only
a bad count and parses to `IncorrectByteCount`. -/
theorem claim9_invalid_precedence_witness :
    BDAddr.from_str "2A:ZZ" = .error .InvalidInt ∧
    BDAddr.from_str "2A:00:00" = .error .IncorrectByteCount :=
  ⟨(claim9_invalid_precedence "2A:ZZ").1 (by decide),
   (claim9_invalid_precedence "2A:00:00").2.mpr ⟨by decide, by decide⟩⟩

/-- C1 counterexample: the claim that every call to the
event-subscription operation yields a new independent channel fails at
the second call: starting from a fresh `Central`, the first call to
`event_receiver` returns `Some`, but the second call returns `None`
(the documented contract of `Central::event_receiver`), so a second
subscriber never obtains a delivery channel. -/
theorem claim1_event_receiver_counterexample :
    (Central.event_receiver ⟨false⟩).1 = some () ∧
    (Central.event_receiver (Central.event_receiver ⟨false⟩).2).1 = none := by
  decide

/-- C1 amended: `event_receiver` does not create a channel per call:
on a fresh `Central` the first call returns `Some(receiver)` of the
single event channel, and after any call the receiver is marked taken,
so every subsequent call returns `None` — at most one subscriber
handle exists. -/
theorem claim1_event_receiver_single :
    ∀ st : CentralChannelState,
    (st.receiverTaken = false → (Central.event_receiver st).1 = some ()) ∧
    ((Central.event_receiver st).2).receiverTaken = true ∧
    (Central.event_receiver ((Central.event_receiver st).2)).1 = none := by
  intro st
  cases st with
  | mk b => cases b <;> simp [Central.event_receiver]

/-- C1 witness: the amended contract instantiated on a fresh
`Central`. -/
theorem claim1_event_receiver_single_witness :
    (Central.event_receiver ⟨false⟩).1 = some () ∧
    (Central.event_receiver ((Central.event_receiver ⟨false⟩).2)).1 = none :=
  ⟨(claim1_event_receiver_single ⟨false⟩).1 rfl,
   (claim1_event_receiver_single ⟨false⟩).2.2⟩

/-- C4 counterexample: `BDAddr` does not carry a canonical total
ordering in the source: its `#[derive(...)]` list
(`Copy, Clone, Hash, Eq, PartialEq, Default`) contains neither `Ord`
nor `PartialOrd`, so the code provides no comparison relation on
`BDAddr` and the type is not usable in sorted sets (`BTreeSet`
requires `Ord`). -/
theorem claim4_ordering_counterexample :
    BDAddr.derivedTraits.contains "Ord" = false ∧
    BDAddr.derivedTraits.contains "PartialOrd" = false := by
  decide

/-- C4 amended: `BDAddr` has decidable equality (the derived
`PartialEq`/`Eq`, whose `==` agrees with propositional equality) and a
`Hash` implementation, so it is usable as a hash-map key; but the
source derives no `Ord`/`PartialOrd` for `BDAddr` — among the model's
types only `Characteristic` carries a derived total order. -/
theorem claim4_eq_yes_ord_no :
    (∀ x y : BDAddr, BDAddr.beqImpl x y = true ↔ x = y) ∧
    BDAddr.derivedTraits.contains "Eq" = true ∧
    BDAddr.derivedTraits.contains "Hash" = true ∧
    BDAddr.derivedTraits.contains "Ord" = false ∧
    BDAddr.derivedTraits.contains "PartialOrd" = false ∧
    Characteristic.derivedTraits.contains "Ord" = true := by
  refine ⟨?_, by decide, by decide, by decide, by decide, by decide⟩
  intro x y
  cases x
  cases y
  simp [BDAddr.beqImpl, and_assoc]

/-- C5 counterexample: the primary key of a device record is the bare
`BDAddr`; two peripherals with the same 6 bytes but different address
kinds have the same identity key, not distinct ones. -/
theorem claim5_identity_counterexample :
    let A : BDAddr := ⟨0xDD, 0xCC, 0xBB, 0xAA, 0x00, 0x2A⟩
    let p : PeripheralProperties := ⟨A, .Public, none, none, [], [], [], 0, false⟩
    let q : PeripheralProperties := ⟨A, .Random, none, none, [], [], [], 0, false⟩
    p.address_type ≠ q.address_type ∧ p.identityKey = q.identityKey := by
  decide

/-- C5 amended: the identity key comprises only the 6-byte hardware
address (`BDAddr`); the address-kind tag is a separate field of
`PeripheralProperties` and plays no part in the key, so two devices
with the same 6 bytes and different kinds share one identity. -/
theorem claim5_identity_is_address_only :
    ∀ p q : PeripheralProperties,
    (p.identityKey = q.identityKey ↔ p.address = q.address) ∧
    (p.address = q.address → p.address_type ≠ q.address_type →
      p.identityKey = q.identityKey) := by
  intro p q
  exact ⟨Iff.rfl, fun h _ => h⟩

/-- C5 witness: the amended statement instantiated on two concrete
records sharing the bytes and differing in kind. -/
theorem claim5_identity_is_address_only_witness :
    PeripheralProperties.identityKey
        ⟨⟨1, 2, 3, 4, 5, 6⟩, .Public, none, none, [], [], [], 0, false⟩ =
      PeripheralProperties.identityKey
        ⟨⟨1, 2, 3, 4, 5, 6⟩, .Random, none, none, [], [], [], 0, false⟩ :=
  (claim5_identity_is_address_only
      ⟨⟨1, 2, 3, 4, 5, 6⟩, .Public, none, none, [], [], [], 0, false⟩
      ⟨⟨1, 2, 3, 4, 5, 6⟩, .Random, none, none, [], [], [], 0, false⟩).2
    rfl (by decide)

/-- C6 counterexample: when all handle fields and the UUID are equal
the order is not decided by the UUID: the derived order still
separates the two values through the `properties` field, so
`Characteristic::cmp` disagrees with the UUID comparison there. -/
theorem claim6_uuid_not_last_counterexample :
    Characteristic.handleCmp ⟨1, 2, 3, ⟨9⟩, ⟨0⟩⟩ ⟨1, 2, 3, ⟨9⟩, ⟨1⟩⟩ = .eq ∧
    Uuid.cmp ⟨9⟩ ⟨9⟩ = .eq ∧
    Characteristic.cmp ⟨1, 2, 3, ⟨9⟩, ⟨0⟩⟩ ⟨1, 2, 3, ⟨9⟩, ⟨1⟩⟩ = .lt := by
  decide

/-- C6 amended: the derived total order on `Characteristic` is
lexicographic over handle range, then UUID, then the property flags:
if the handle fields differ the handles decide; if the handles agree
and the UUIDs differ the UUID decides; if both agree the property
bit-set decides. -/
theorem claim6_lexicographic_order :
    ∀ x y : Characteristic,
    (Characteristic.handleCmp x y ≠ .eq →
      Characteristic.cmp x y = Characteristic.handleCmp x y) ∧
    (Characteristic.handleCmp x y = .eq → Uuid.cmp x.uuid y.uuid ≠ .eq →
      Characteristic.cmp x y = Uuid.cmp x.uuid y.uuid) ∧
    (Characteristic.handleCmp x y = .eq → Uuid.cmp x.uuid y.uuid = .eq →
      Characteristic.cmp x y = CharPropFlags.cmp x.properties y.properties) := by
  intro x y
  have hdef : Characteristic.cmp x y =
      ((Characteristic.handleCmp x y).then (Uuid.cmp x.uuid y.uuid)).then
        (CharPropFlags.cmp x.properties y.properties) := rfl
  refine ⟨?_, ?_, ?_⟩
  · intro hne
    rw [hdef, ordering_then_of_ne _ hne, ordering_then_of_ne _ hne]
  · intro heq hune
    rw [hdef, heq]
    show (Ordering.eq.then (Uuid.cmp x.uuid y.uuid)).then _ = _
    rw [show Ordering.eq.then (Uuid.cmp x.uuid y.uuid) = Uuid.cmp x.uuid y.uuid from rfl,
      ordering_then_of_ne _ hune]
  · intro heq hueq
    rw [hdef, heq, hueq]
    rfl

/-- C6 witness: the three cases of the amended order instantiated on
concrete characteristics. -/
theorem claim6_lexicographic_order_witness :
    Characteristic.cmp ⟨0, 0, 0, ⟨5⟩, ⟨0⟩⟩ ⟨1, 0, 0, ⟨4⟩, ⟨0⟩⟩ =
      Characteristic.handleCmp ⟨0, 0, 0, ⟨5⟩, ⟨0⟩⟩ ⟨1, 0, 0, ⟨4⟩, ⟨0⟩⟩ ∧
    Characteristic.cmp ⟨0, 0, 0, ⟨5⟩, ⟨7⟩⟩ ⟨0, 0, 0, ⟨4⟩, ⟨0⟩⟩ =
      Uuid.cmp ⟨5⟩ ⟨4⟩ ∧
    Characteristic.cmp ⟨0, 0, 0, ⟨5⟩, ⟨7⟩⟩ ⟨0, 0, 0, ⟨5⟩, ⟨9⟩⟩ =
      CharPropFlags.cmp ⟨7⟩ ⟨9⟩ :=
  ⟨(claim6_lexicographic_order ⟨0, 0, 0, ⟨5⟩, ⟨0⟩⟩ ⟨1, 0, 0, ⟨4⟩, ⟨0⟩⟩).1 (by decide),
   (claim6_lexicographic_order ⟨0, 0, 0, ⟨5⟩, ⟨7⟩⟩ ⟨0, 0, 0, ⟨4⟩, ⟨0⟩⟩).2.1
     (by decide) (by decide),
   (claim6_lexicographic_order ⟨0, 0, 0, ⟨5⟩, ⟨7⟩⟩ ⟨0, 0, 0, ⟨5⟩, ⟨9⟩⟩).2.2
     (by decide) (by decide)⟩

/-- C10: the `AddressType` numeric encoding round-trips
(`from_u8 ∘ num = some`), `from_u8` rejects every value outside
`{1, 2}`, and `from_str` accepts exactly `"public"` and `"random"`. -/
theorem claim10_address_type_codes :
    (∀ t : AddressType, AddressType.from_u8 t.num = some t) ∧
    (∀ v : Nat, v ≠ 1 → v ≠ 2 → AddressType.from_u8 v = none) ∧
    AddressType.from_str "public" = some .Public ∧
    AddressType.from_str "random" = some .Random ∧
    (∀ s : String, s ≠ "public" → s ≠ "random" → AddressType.from_str s = none) := by
  refine ⟨?_, ?_, rfl, rfl, ?_⟩
  · intro t
    cases t <;> rfl
  · intro v h1 h2
    simp [AddressType.from_u8, h1, h2]
  · intro s h1 h2
    simp [AddressType.from_str, h1, h2]

/-- C10 witness: the rejection clauses instantiated at `7` and
`"foo"`. -/
theorem claim10_address_type_codes_witness :
    AddressType.from_u8 7 = none ∧ AddressType.from_str "foo" = none :=
  ⟨claim10_address_type_codes.2.1 7 (by decide) (by decide),
   claim10_address_type_codes.2.2.2.2 "foo" (by decide) (by decide)⟩
